import Mathlib

/-!
Verification of the encrypted socket transport of the `fluxrpc` package
(files `fluxrpc/transports/socket/client.py` and
`fluxrpc/transports/socket/server.py`).

Bytes are modelled as `List Nat`; the wire frame separator is the 6-byte
sequence `<?!!?>`.  Stateful code is embedded as explicit state-passing
functions; the asyncio event loop's nondeterminism (fresh randomness,
dial outcomes, elapsed wall-clock time) is supplied through an `Oracle`
record, and messages that a coroutine awaits are supplied as explicit
arguments.  Cryptography lives in the (absent) `messages.py` module and
is modelled symbolically, following the spec's round-trip contract.
-/

namespace FluxRPC

/-! ## Bytes and the frame separator -/

/-- A byte string, as used on the wire. -/
abbrev Bytes := List Nat

/-- Source: `client.py` line 270 / `server.py` line 252: `self.separator = b"<?!!?>"`,
i.e. the bytes `0x3C 0x3F 0x21 0x21 0x3F 0x3E`. -/
def separator : Bytes := [60, 63, 33, 33, 63, 62]

/-- The set of byte values occurring in the separator: Python's
`bytes.rstrip(b"<?!!?>")` strips trailing bytes drawn from this set. -/
def sepByteSet : List Nat := [60, 63, 33, 62]

/-- Python `data.rstrip(b"<?!!?>")` (`client.py` line 810, `server.py`
line 631): remove trailing bytes whose value is one of the separator's
byte values. -/
def rstripSep (b : Bytes) : Bytes :=
  (b.reverse.dropWhile (fun x => x ∈ sepByteSet)).reverse

/-- Does `pat` occur at the start of `l`?  (Used to scan for the
leftmost occurrence of the separator, as Python `bytes.split` and
`re.findall` do.) -/
def bytesStartWith : Bytes → Bytes → Bool
  | [], _ => true
  | _ :: _, [] => false
  | a :: as, b :: bs => a == b && bytesStartWith as bs

/-- Fuelled scanner implementing Python `data.split(b"<?!!?>")`:
scan left to right, cutting at each leftmost non-overlapping occurrence
of the separator.  `fuel ≥ l.length` makes the fuel irrelevant. -/
def splitSepFuel : Nat → Bytes → Bytes → List Bytes
  | _, acc, [] => [acc.reverse]
  | 0, acc, l => [acc.reverse ++ l]
  | fuel + 1, acc, b :: rest =>
    if bytesStartWith separator (b :: rest) then
      acc.reverse :: splitSepFuel fuel [] ((b :: rest).drop separator.length)
    else
      splitSepFuel fuel (b :: acc) rest

/-- Python `data.split(b"<?!!?>")`. -/
def splitSep (l : Bytes) : List Bytes := splitSepFuel l.length [] l

/-- Number of non-overlapping occurrences of the separator in `l`, as
computed by `re.findall(b"\\<\\?!!\\?\\>", l)` (`client.py` line 789). -/
def countSep (l : Bytes) : Nat := (splitSep l).length - 1

/-! ## The channel manager (`client.py` lines 75-147)

`Channel` is the dataclass at `client.py` line 75: an integer id, an
`in_use` flag and a reply mailbox (an `asyncio.Queue`, modelled as the
list of queued messages; defined after `Msg` below). -/

/-! ## The message catalogue

The repository's `messages.py` is not part of `src/`; the variants and
their fields are reconstructed from their uses in `client.py` and
`server.py`.  `encMsg` stands for `EncryptedMessage`:
encryption/decryption is symbolic.

Modelled from the spec: the AES envelope (`messages.py` is absent);
per §4.2/§8.2 `decrypt(encrypt(m, k), k) = m` and decryption under a
wrong key is a hard failure, which the symbolic constructor realises. -/
inductive Msg where
  | rsaPublicKey (key : String)
  | sessionKey (newAesKey : String)
  | aesKey (key : String)
  | encMsg (inner : Msg) (key : String)
  | testMsg (fill : String) (text : String)
  | challenge (authRequired : Bool)
  | challengeReply (closeConnection : Bool)
  | authReply (authenticated : Bool)
  | proxyMsg (required : Bool) (target : String) (port : Nat) (ssl : Bool)
  | proxyResponse (success : Bool) (socketDetails : Option String)
  | rpcRequest (chanId : Nat) (payload : Bytes)
  | rpcReply (chanId : Nat) (payload : Bytes)
  | ptyMsg (data : Bytes)
  | ptyResize (rows : Nat) (cols : Nat)
  | ptyClosed (reason : Bytes)
  | fileEntryStream (path : String) (data : Bytes) (eof : Bool)
  | liveliness (chanId : Nat) (text : String)
  | aesRekey
  deriving DecidableEq, Repr

/-- Python `s[::-1]` on a string. -/
def revString (s : String) : String := String.mk s.data.reverse

/-- Source: `message.decrypt(key)` as performed in the guarded position of
`server.py` lines 657-663 (and mirrored on the client): on success the
inner message is returned; a failed decryption raises, is caught, and
the message is left as it was.

Modelled from the spec: the AES envelope semantics (`messages.py` is
absent); a tag/key mismatch is a failure, so the envelope is returned
unchanged as the code's `except` path does. -/
def decryptIfPossible (k : String) (m : Msg) : Msg :=
  match m with
  | .encMsg inner key => if key = k then inner else m
  | _ => m

/-- Source: `client.py` line 75: the `Channel` dataclass. -/
structure Channel where
  id : Nat
  in_use : Bool
  q : List Msg
  deriving DecidableEq, Repr

/-- Source: `ChannelManager.add_channel` (`client.py` lines 135-137):
`id = len(self.channels); self.channels.append(Channel(id))`. -/
def addChannel (cs : List Channel) : List Channel :=
  cs ++ [⟨cs.length, false, []⟩]

/-- Source: `ChannelManager.remove_channel` (`client.py` lines 142-147): remove
the first channel whose `in_use` flag is false. -/
def removeFirstIdle : List Channel → List Channel
  | [] => []
  | c :: rest => if c.in_use then c :: removeFirstIdle rest else rest

/-- Source: `ChannelManager.release_channel` (`client.py` lines 127-130): clear
`in_use` on every channel whose id matches. -/
def releaseChannel (cs : List Channel) (i : Nat) : List Channel :=
  cs.map (fun c => if c.id = i then { c with in_use := false } else c)

/-- Source: `ChannelManager.get_channel_by_id` (`client.py` lines 132-133):
first channel with the given id, if any. -/
def getChannelById (cs : List Channel) (i : Nat) : Option Channel :=
  cs.find? (fun c => c.id == i)

/-- Source: `ChannelManager.get_channel` (`client.py` lines 117-125): take the
first channel with `in_use = false`, mark it used, and return it
together with the updated list; `none` models the raised
`ChannelError`. -/
def acquireChannel : List Channel → Option (Channel × List Channel)
  | [] => none
  | c :: rest =>
    if c.in_use then
      (acquireChannel rest).map (fun p => (p.1, c :: p.2))
    else
      some ({ c with in_use := true }, { c with in_use := true } :: rest)

/-- Source: `client.py` lines 833-839, the `RpcReplyMessage` arm of the read
loop: `chan = get_channel_by_id(chan_id)`; if found, `chan.q.put`
enqueues on that (first-matching) channel; otherwise a `ChannelError`
is raised (modelled by `none`). -/
def putReplyFirst : List Channel → Nat → Msg → Option (List Channel)
  | [], _, _ => none
  | c :: rest, i, m =>
    if c.id = i then some ({ c with q := c.q ++ [m] } :: rest)
    else (putReplyFirst rest i m).map (fun cs => c :: cs)

/-! ## Client `send_message` (`client.py` lines 932-967) -/

/-- Source: `client.py` line 954: `asyncio.wait_for(chan.q.get(), timeout=45)`. -/
def RPC_REPLY_TIMEOUT : Nat := 45

/-- What `send_message` hands back to its caller on the `expect_reply`
path: the reply's payload for an `RpcReplyMessage`, otherwise the
message object itself (`client.py` lines 961-967). -/
def sendMessageRet (res : Msg) : Bytes ⊕ Msg :=
  match res with
  | .rpcReply _ p => .inl p
  | other => .inr other

/-- The observable outcome of one `send_message` call. -/
structure SendOutcome where
  channels : List Channel
  result : Option (Bytes ⊕ Msg)
  sent : List Msg
  deriving DecidableEq, Repr

/-- Source: `EncryptedSocketClientTransport.send_message` (`client.py` lines
932-967) on the `bytes` payload path with `expect_reply=True`.

A channel is acquired (`get_channel`, raising `ChannelError` — `none` —
if none is idle), the payload is wrapped in an `RpcRequestMessage`
carrying the channel id, encrypted when the transport is encrypted, and
written to the socket.  `reply` is the outcome of awaiting the
channel's mailbox for at most `RPC_REPLY_TIMEOUT` seconds: `some res`
when a reply arrived in time, `none` on `asyncio.TimeoutError`.  On
timeout the function logs and returns `None` — without touching the
channel; `release_channel` runs only after a reply was received. -/
def sendMessageBytes (cs : List Channel) (encrypted : Bool) (aes : String)
    (payload : Bytes) (reply : Option Msg) : Option SendOutcome :=
  match acquireChannel cs with
  | none => none
  | some (chan, cs1) =>
    let msg := Msg.rpcRequest chan.id payload
    let wire := if encrypted then Msg.encMsg msg aes else msg
    match reply with
    | none => some ⟨cs1, none, [wire]⟩
    | some res =>
      let cs2 := releaseChannel cs1 chan.id
      some ⟨cs2, some (sendMessageRet res), [wire]⟩

/-! ## Client connect/disconnect channel accounting
(`client.py` lines 583-703 and 980-1023)

The state a `connect`/`disconnect` interleaving manipulates.  The
asyncio scheduler is single-threaded: each named step below is one of
the synchronous segments a coroutine executes between two await
points, exactly as the source orders them. -/

structure ConnState where
  connecting : Bool := false
  disconnecting : Bool := false
  connected : Bool := false
  socketOpen : Bool := false
  channels : List Channel := []
  deriving DecidableEq, Repr

/-- The initiating `connect` call up to its first handshake await
(`client.py` lines 611-624): `_connecting = True`, `_connect()` opens
the socket, then `add_channel()`. -/
def connectBegin (s : ConnState) : ConnState :=
  { s with connecting := true, socketOpen := true,
           channels := addChannel s.channels }

/-- A `connect` call arriving while another is mid-handshake
(`client.py` lines 590-593): `if self._connecting:
self.channels.add_channel()`, then it waits in the sleep loop. -/
def connectEarlyAdd (s : ConnState) : ConnState :=
  if s.connecting then { s with channels := addChannel s.channels } else s

/-- The tail of the initiating `connect` after the handshake events
all fired (`client.py` lines 702-703): `_connected = True;
_connecting = False`. -/
def connectFinish (s : ConnState) : ConnState :=
  { s with connected := true, connecting := false }

/-- The waiting `connect` resuming after the sleep loop (`client.py`
lines 604-609): `if self.channels: self.channels.add_channel(); return`. -/
def connectExistingAdd (s : ConnState) : ConnState :=
  if s.channels ≠ [] then { s with channels := addChannel s.channels } else s

/-- Source: `disconnect` (`client.py` lines 980-1004) followed, when the
channel list became empty, by `_close_socket` (lines 1006-1023) which
writes EOF, closes the writer and resets the state. -/
def disconnectCall (s : ConnState) : ConnState :=
  let s1 := { s with channels := removeFirstIdle s.channels }
  if s1.channels ≠ [] then s1
  else { s1 with disconnecting := false, connected := false,
                 connecting := false, socketOpen := false }

/-! ## Client read-loop framing (`client.py` lines 748-815)

Steady-state reads use `reader.readuntil(separator)`, which yields one
separator-terminated frame.  On `LimitOverrunError` the loop falls back
to `reader.read(64000)` chunks until a chunk ends with the separator
(so the reassembled chunk list always has a separator-terminated final
chunk and intermediate chunks that do not end with the separator). -/

/-- The `LimitOverrunError` arm of the client read loop (`client.py`
lines 778-800) together with the dispatch-list construction at lines
810-812: from the reassembled chunk list, compute the list of byte
strings handed one by one to `SerializedMessage(...).deserialize()`.

Only the *final* chunk is scanned for separators
(`re.findall(..., data[-1])`); when it holds more than one, the final
chunk alone is split, its first non-empty component is glued back onto
the earlier chunks, and the remaining components become
`extra_messages`.  `none` models the `IndexError` that `pop(0)` raises
when every component of the final chunk is empty. -/
def overrunDispatch (chunks : List Bytes) : Option (List Bytes) :=
  if countSep (chunks.getLastD []) > 1 then
    match (splitSep (chunks.getLastD [])).filter (fun c => c ≠ []) with
    | [] => none
    | c0 :: rest =>
      some (rstripSep ((chunks.dropLast ++ [c0 ++ separator]).flatten) :: rest)
  else
    some [rstripSep chunks.flatten]

/-- The behaviour the spec describes (§4.1): split the whole buffered
byte sequence at every separator and dispatch each (non-empty)
component as its own message.  This definition follows the spec's
words and exists to be compared with `overrunDispatch`. -/
def specSplitDispatch (buffered : Bytes) : List Bytes :=
  (splitSep buffered).filter (fun c => c ≠ [])

/-- Server-side reassembly after `LimitOverrunError` (`server.py` lines
598-637): `overrun_strategy` returns the raw over-long chunk, the read
loop appends it to `buffer` and continues; when `readuntil` finally
returns, `buffer.extend([data, self.separator])`, the buffer is joined,
rstripped, and handed to `process_messages` as a single element — the
server never splits the reassembled bytes at interior separators. -/
def serverReassembleDispatch (buffer : List Bytes) (data : Bytes) : List Bytes :=
  if buffer = [] then [rstripSep data]
  else [rstripSep ((buffer ++ [data, separator]).flatten)]

/-! ## Server peer state and handlers (`server.py`) -/

/-- Environment inputs a handler obtains from the runtime: fresh RSA
material and randomness (`RSA.generate`, `get_random_bytes`), the
outcome of each forwarding dial attempt (`asyncio.open_connection`
returning a writer whose sockname is the carried string, or failing),
the wall-clock milliseconds each dial attempt consumed, and the auth
provider's verdict. -/
structure Oracle where
  freshRsaPrivate : String
  freshRsaPublic : String
  freshRandom : String
  dial : Nat → Option String
  dialElapsedMs : Nat → Nat
  authVerdict : Bool

/-- Observable effects of the server-side handlers. -/
inductive SrvOut where
  | sent (m : Msg)
  | rpcQueued (chanId : Nat) (payload : Bytes)
  | timerStarted
  | timerCancelled
  | sleptMs (n : Nat)
  | pipesStarted
  | mkdirParents (path : String)
  | openedForWrite (path : String)
  | closedHandle (path : String)
  | challengeEventSet
  | forwardingEventSet
  deriving DecidableEq, Repr

/-- The fields of `EncryptablePeer` (`server.py` lines 129-148) and
`KeyData` (lines 59-72) that the handlers read or write, together with
the files the peer's file streams have written (`fh` holds the paths
with an open handle; `files` the on-disk contents).  `destroyed`
records that `peers.destroy_peer` removed this peer. -/
structure SrvPeerState where
  encrypted : Bool := false
  authenticated : Bool := false
  aesKey : String := ""
  rsaPrivate : String := ""
  rsaPublic : String := ""
  random : String := ""
  proxied : Bool := false
  destroyed : Bool := false
  fhPaths : List String := []
  files : List (String × Bytes) := []
  deriving DecidableEq, Repr

/-- Association-list lookup for the modelled filesystem. -/
def lookupFile (files : List (String × Bytes)) (p : String) : Option Bytes :=
  (files.find? (fun e => e.1 == p)).map (fun e => e.2)

/-- Association-list update/insert for the modelled filesystem. -/
def setFile (files : List (String × Bytes)) (p : String) (b : Bytes) :
    List (String × Bytes) :=
  if files.any (fun e => e.1 == p) then
    files.map (fun e => if e.1 == p then (p, b) else e)
  else
    files ++ [(p, b)]

/-- Source: `EncryptablePeer.handle_file_stream_message` (`server.py` lines
161-179): on the first chunk for a path, create the parent directories
and open the path for write (`"wb"` truncates, so the file exists and
is empty from that point); append `data`; on `eof`, close and drop the
handle. -/
def handleFileStream (s : SrvPeerState) (path : String) (data : Bytes)
    (eof : Bool) : SrvPeerState × List SrvOut :=
  let opened :=
    if path ∈ s.fhPaths then (s, ([] : List SrvOut))
    else ({ s with fhPaths := s.fhPaths ++ [path],
                   files := setFile s.files path [] },
          [.mkdirParents path, .openedForWrite path])
  let s1 := opened.1
  let s2 := { s1 with
    files := setFile s1.files path ((lookupFile s1.files path).getD [] ++ data) }
  if eof then
    ({ s2 with fhPaths := s2.fhPaths.erase path }, opened.2 ++ [.closedHandle path])
  else
    (s2, opened.2)

/-- Source: `EncryptedSocketServerTransport.begin_encryption` (`server.py`
lines 279-292): regenerate the RSA pair (on a worker thread), send the
public key — encrypted under the *current* AES key when `rekey` — and
start the peer inactivity timer. -/
def beginEncryption (o : Oracle) (s : SrvPeerState) (rekey : Bool) :
    SrvPeerState × List SrvOut :=
  let s1 := { s with rsaPrivate := o.freshRsaPrivate,
                     rsaPublic := o.freshRsaPublic }
  let msg := Msg.rsaPublicKey s1.rsaPublic
  let msg := if rekey then Msg.encMsg msg s1.aesKey else msg
  (s1, [.sent msg, .timerStarted])

/-- Source: `handle_aes_rekey_message` (`server.py` lines 352-360): delegate to
`begin_encryption` with `rekey=True`. -/
def handleAesRekey (o : Oracle) (s : SrvPeerState) : SrvPeerState × List SrvOut :=
  beginEncryption o s true

/-- Source: `parse_session_key_message` (`server.py` lines 259-277): RSA-decrypt
the wrapped session key with the peer's private key, then decrypt the
inner `AesKeyMessage` with it.

Modelled from the spec: the RSA/AES unwrapping itself lives in the
crypto library and `messages.py` (absent); per §4.5 step 6 the result
is the AES key the client drew, which the symbolic `sessionKey`
variant carries directly (on failure the source prints and exits the
process, leaving no state to model). -/
def parseSessionKeyMessage (newAesKey : String) : String := newAesKey

/-- Source: `handle_encryption_message` (`server.py` lines 385-414).  For a
`SessionKeyMessage`: store the AES key, burn the RSA material, and — if
the peer is not yet encrypted — send the encrypted `TestMessage`
carrying 16 fresh random bytes as hex.  For an `EncryptedMessage` (the
test reply): decrypt with the current AES key and set
`peer.encrypted = True` exactly when the reply's `text` is
`"TestEncryptionMessageResponse"` and its `fill` is the reversal of
`peer.random`.  Any other (or undecryptable) content raises inside this
spawned task and leaves the peer state unchanged. -/
def handleEncryption (o : Oracle) (s : SrvPeerState) (m : Msg) :
    SrvPeerState × List SrvOut :=
  match m with
  | .sessionKey k =>
    let aes := parseSessionKeyMessage k
    let s1 := { s with aesKey := aes, rsaPrivate := "", rsaPublic := "" }
    if s1.encrypted then
      (s1, [.timerCancelled])
    else
      let s2 := { s1 with random := o.freshRandom }
      (s2, [.timerCancelled,
            .sent (Msg.encMsg (Msg.testMsg s2.random "TestEncryptionMessage") aes)])
  | .encMsg inner key =>
    if key = s.aesKey then
      match inner with
      | .testMsg fill text =>
        if text = "TestEncryptionMessageResponse" ∧ fill = revString s.random then
          ({ s with encrypted := true }, [.timerCancelled])
        else
          (s, [.timerCancelled])
      | _ => (s, [.timerCancelled])
    else
      (s, [.timerCancelled])
  | _ => (s, [.timerCancelled])

/-- Source: `handle_auth_message` (`server.py` lines 318-342), with the auth
provider's presence passed as `hasAuthProvider` and its verdict taken
from the oracle. -/
def handleAuth (o : Oracle) (hasAuthProvider : Bool) (s : SrvPeerState)
    (closeConnection : Bool) : SrvPeerState × List SrvOut :=
  if closeConnection then
    (s, [.timerCancelled, .challengeEventSet])
  else if ¬ hasAuthProvider then
    (s, [.timerCancelled, .challengeEventSet])
  else
    let s1 := { s with authenticated := o.authVerdict }
    (s1, [.timerCancelled, .sent (Msg.authReply s1.authenticated),
          .challengeEventSet])

/-- Source: `handle_liveliness_message` (`server.py` lines 344-350): echo the
text reversed, encrypted under the peer's AES key. -/
def handleLiveliness (s : SrvPeerState) (chanId : Nat) (text : String) :
    SrvPeerState × List SrvOut :=
  (s, [.sent (Msg.encMsg (Msg.liveliness chanId (revString text)) s.aesKey)])

/-- Source: `setup_forwarding`'s dial loop (`server.py` lines 416-440):
`for n in range(3)`: try the dial with a 1-second timeout; on success
break out; on failure sleep `max(0, 1 - elapsed)` so failed attempts
keep a 1-second cadence (modelled in milliseconds). -/
def tryDialAttempts (o : Oracle) : List Nat → Option String × List SrvOut
  | [] => (none, [])
  | n :: rest =>
    match o.dial n with
    | some sock => (some sock, [])
    | none =>
      let pad := max 0 (1000 - o.dialElapsedMs n)
      let r := tryDialAttempts o rest
      (r.1, .sleptMs pad :: r.2)

/-- Source: `setup_forwarding` (`server.py` lines 416-459): run the dial loop
over attempts `0, 1, 2`; on success mark the peer proxied and start the
two splice pipes, returning `(True, upstream sockname)`; otherwise
`(False, None)`. -/
def setupForwarding (o : Oracle) (s : SrvPeerState) :
    SrvPeerState × (Bool × Option String) × List SrvOut :=
  let d := tryDialAttempts o (List.range 3)
  match d.1 with
  | some sock => ({ s with proxied := true }, (true, some sock), d.2 ++ [.pipesStarted])
  | none => (s, (false, none), d.2)

/-- Source: `handle_forwarding_message` (`server.py` lines 362-383): a
`ProxyResponseMessage` starts out `success=False`.  When the client
required a proxy, dial it; send the response with the dial's outcome
and destroy the peer if the dial failed.  When no proxy was required,
send the `success=False` response as-is, do not destroy, and set the
forwarding event so `handle_client` proceeds to `begin_encryption`. -/
def handleForwarding (o : Oracle) (s : SrvPeerState) (proxyRequired : Bool) :
    SrvPeerState × List SrvOut :=
  if proxyRequired then
    let f := setupForwarding o s
    let resp := Msg.proxyResponse f.2.1.1 f.2.1.2
    let s2 := if f.2.1.1 then f.1 else { f.1 with destroyed := true }
    (s2, f.2.2 ++ [.sent resp, .forwardingEventSet])
  else
    (s, [.sent (Msg.proxyResponse false none), .forwardingEventSet])

/-- The step `handle_client` performs once the forwarding event fired
(`server.py` lines 525-529): when the peer's writer is still open and
the peer was not proxied, start the encryption bootstrap. -/
def handleClientPostForwarding (o : Oracle) (s : SrvPeerState) :
    SrvPeerState × List SrvOut :=
  if ¬ s.destroyed ∧ ¬ s.proxied then beginEncryption o s false else (s, [])

/-- The dispatch of `process_messages` (`server.py` lines 644-702) for
one already-deserialized message: decrypt the envelope when the peer is
encrypted (a failure is caught and the message kept as-is), then match
on the variant. -/
def processOne (o : Oracle) (hasAuthProvider : Bool) (s : SrvPeerState)
    (m : Msg) : SrvPeerState × List SrvOut :=
  let m := if s.encrypted then decryptIfPossible s.aesKey m else m
  match m with
  | .aesRekey => handleAesRekey o s
  | .ptyMsg _ => (s, [])
  | .ptyResize _ _ => (s, [])
  | .fileEntryStream path data eof => handleFileStream s path data eof
  | .liveliness chanId text => handleLiveliness s chanId text
  | .challengeReply closeConnection => handleAuth o hasAuthProvider s closeConnection
  | .sessionKey k => handleEncryption o s (.sessionKey k)
  | .encMsg inner key => handleEncryption o s (.encMsg inner key)
  | .proxyMsg required _ _ _ => handleForwarding o s required
  | .rpcRequest chanId payload => (s, [.rpcQueued chanId payload])
  | _ => (s, [])

/-- The per-frame loop of `process_messages` (`server.py` lines
644-653): deserialize each frame; a failure is logged and that frame
alone is skipped (`continue`), the remaining frames being processed as
usual. -/
def serverProcessFrames (deser : Bytes → Option Msg) (o : Oracle)
    (hasAuthProvider : Bool) (s : SrvPeerState) :
    List Bytes → SrvPeerState × List SrvOut
  | [] => (s, [])
  | f :: rest =>
    match deser f with
    | none => serverProcessFrames deser o hasAuthProvider s rest
    | some m =>
      let r1 := processOne o hasAuthProvider s m
      let r2 := serverProcessFrames deser o hasAuthProvider r1.1 rest
      (r2.1, r1.2 ++ r2.2)

/-! ## Client read-loop dispatch (`client.py` lines 815-860)

For the claims below only the channel mailboxes and the connection
flags matter; the authentication, forwarding and encryption handlers
synchronise the connect coroutine through events and touch none of the
fields modelled here, so those arms leave the state unchanged.  The
`RpcReplyMessage` arm is `putReplyFirst`; `none` models the
`ChannelError` it raises on an unknown channel id. -/

structure ClientState where
  connected : Bool := false
  encrypted : Bool := false
  aesKey : String := ""
  channels : List Channel := []
  deriving DecidableEq, Repr

/-- One iteration of the client's per-frame dispatch (`client.py`
lines 825-860), after successful deserialization. -/
def clientDispatchOne (cst : ClientState) (m : Msg) : Option ClientState :=
  let m := if cst.encrypted then decryptIfPossible cst.aesKey m else m
  match m with
  | .rpcReply chanId _ =>
    (putReplyFirst cst.channels chanId (.rpcReply chanId (match m with
      | .rpcReply _ p => p
      | _ => []))).map (fun cs => { cst with channels := cs })
  | _ => some cst

/-- The client's per-frame loop body (`client.py` lines 815-822): a
frame that fails to deserialize is logged and skipped (`continue`);
the rest keep being processed. -/
def clientProcessFrames (deser : Bytes → Option Msg) (cst : ClientState) :
    List Bytes → Option ClientState
  | [] => some cst
  | f :: rest =>
    match deser f with
    | none => clientProcessFrames deser cst rest
    | some m =>
      match clientDispatchOne cst m with
      | none => none
      | some cst1 => clientProcessFrames deser cst1 rest

/-! ## Peer registry and `send_reply` (`server.py` lines 75-127, 736-752) -/

/-- Source: `EncryptablePeerGroup.get_peer` (`server.py` lines 106-109): first
peer whose id matches. -/
def getPeer (peers : List (Nat × SrvPeerState)) (i : Nat) :
    Option SrvPeerState :=
  (peers.find? (fun p => p.1 == i)).map (fun p => p.2)

/-- Source: `EncryptedSocketServerTransport.send_reply` (`server.py` lines
736-752): build the `RpcReplyMessage`; look the peer up; when the peer
is gone, log and return (the reply is dropped, nothing is written and
the registry is untouched); otherwise encrypt under the peer's AES key
when the peer is encrypted and write on that peer's socket.  The result
is the (unchanged) registry and the list of `(peer, message)` writes. -/
def sendReply (peers : List (Nat × SrvPeerState)) (ctx : Nat) (chan : Nat)
    (data : Bytes) : List (Nat × SrvPeerState) × List (Nat × Msg) :=
  let msg := Msg.rpcReply chan data
  match getPeer peers ctx with
  | none => (peers, [])
  | some p =>
    let wire := if p.encrypted then Msg.encMsg msg p.aesKey else msg
    (peers, [(ctx, wire)])

/-- Arrival-ordered processing of a sequence of
`FileEntryStreamMessage` chunks `(data, eof)` for one path: the read
loop hands them to `handle_file_stream_message` one at a time, in
order. -/
def runFileStream (s : SrvPeerState) (path : String)
    (chunks : List (Bytes × Bool)) : SrvPeerState :=
  chunks.foldl (fun st c => (handleFileStream st path c.1 c.2).1) s

/-! ## Helper lemmas -/

lemma acquireChannel_mem {cs : List Channel} {chan : Channel} {cs1 : List Channel}
    (h : acquireChannel cs = some (chan, cs1)) :
    chan ∈ cs1 ∧ chan.in_use = true := by
  induction cs generalizing cs1 with
  | nil => simp [acquireChannel] at h
  | cons c rest ih =>
    by_cases hc : c.in_use
    · simp only [acquireChannel, hc, if_true, Option.map_eq_some'] at h
      obtain ⟨p, hp, hpe⟩ := h
      obtain ⟨pa, pb⟩ := p
      simp only [Prod.mk.injEq] at hpe
      obtain ⟨rfl, rfl⟩ := hpe
      have := ih hp
      exact ⟨List.mem_cons_of_mem _ this.1, this.2⟩
    · simp only [acquireChannel, hc, if_false, Option.some.injEq, Prod.mk.injEq] at h
      obtain ⟨rfl, rfl⟩ := h
      exact ⟨List.mem_cons_self _ _, rfl⟩

lemma releaseChannel_all_idle (cs : List Channel) (i : Nat) :
    ∀ c ∈ releaseChannel cs i, c.id = i → c.in_use = false := by
  intro c hc hid
  simp only [releaseChannel, List.mem_map] at hc
  obtain ⟨orig, _, horig⟩ := hc
  by_cases h : orig.id = i
  · simp only [h, if_true] at horig
    rw [← horig]
  · simp only [h, if_false] at horig
    rw [← horig] at hid
    exact absurd hid h

/-! ## Claim C1 -/

/-- Claim C1, counterexample.  `send_message` with `expect_reply=True`
on a single idle channel: when the 45-second wait for the mailbox times
out (`reply = none`), the call returns no value — but the acquired
channel (id 0) is still `in_use = true` in the resulting channel list:
the `except asyncio.TimeoutError` arm of `client.py` lines 953-957
returns before `release_channel` at line 959 runs, so the timeout exit
path does not release the channel, contrary to the claim's "on every
exit path ... the acquired channel is released back to idle". -/
theorem C1_counterexample :
    ∃ out, sendMessageBytes [⟨0, false, []⟩] true "k" [1] none = some out
      ∧ out.result = none
      ∧ out.channels = [⟨0, true, []⟩] :=
  ⟨⟨[⟨0, true, []⟩], none, [Msg.encMsg (Msg.rpcRequest 0 [1]) "k"]⟩, rfl, rfl, rfl⟩

/-- Claim C1, amended: a `send_message` call with `expect_reply=True`
that acquired a channel waits at most `RPC_REPLY_TIMEOUT = 45` seconds
on that channel's mailbox; on timeout it returns no value but the
acquired channel stays `in_use`; the channel is released back to idle
(every channel bearing its id) only on the reply-received exit path. -/
theorem C1_amended (cs : List Channel) (enc : Bool) (aes : String)
    (payload : Bytes) (chan : Channel) (cs1 : List Channel)
    (hacq : acquireChannel cs = some (chan, cs1)) :
    RPC_REPLY_TIMEOUT = 45
    ∧ (∃ out, sendMessageBytes cs enc aes payload none = some out
        ∧ out.result = none ∧ chan ∈ out.channels ∧ chan.in_use = true)
    ∧ (∀ res, ∃ out, sendMessageBytes cs enc aes payload (some res) = some out
        ∧ out.result = some (sendMessageRet res)
        ∧ ∀ c ∈ out.channels, c.id = chan.id → c.in_use = false) := by
  obtain ⟨hmem, huse⟩ := acquireChannel_mem hacq
  refine ⟨rfl, ?_, ?_⟩
  · refine ⟨⟨cs1, none,
      [if enc then Msg.encMsg (Msg.rpcRequest chan.id payload) aes
       else Msg.rpcRequest chan.id payload]⟩, ?_, rfl, hmem, huse⟩
    simp [sendMessageBytes, hacq]
  · intro res
    refine ⟨⟨releaseChannel cs1 chan.id, some (sendMessageRet res),
      [if enc then Msg.encMsg (Msg.rpcRequest chan.id payload) aes
       else Msg.rpcRequest chan.id payload]⟩, ?_, rfl, ?_⟩
    · simp [sendMessageBytes, hacq]
    · exact releaseChannel_all_idle cs1 chan.id

/-- Claim C1, witness for the amended theorem at a concrete input. -/
theorem C1_amended_witness :
    RPC_REPLY_TIMEOUT = 45
    ∧ (∃ out, sendMessageBytes [⟨0, false, []⟩] true "k" [1] none = some out
        ∧ out.result = none ∧ (⟨0, true, []⟩ : Channel) ∈ out.channels
        ∧ (⟨0, true, []⟩ : Channel).in_use = true)
    ∧ (∀ res, ∃ out, sendMessageBytes [⟨0, false, []⟩] true "k" [1] (some res) = some out
        ∧ out.result = some (sendMessageRet res)
        ∧ ∀ c ∈ out.channels, c.id = (⟨0, true, []⟩ : Channel).id → c.in_use = false) :=
  C1_amended [⟨0, false, []⟩] true "k" [1] ⟨0, true, []⟩ [⟨0, true, []⟩] rfl

/-! ## Claim C2 -/

/-- Claim C2 fails on the code: with `N = 2`, let the second `connect`
arrive while the first one's handshake is in progress (the scheduler
interleaving is: first connect runs to its first handshake await
after `_connecting = True` / socket open / `add_channel`; the second
connect then executes `client.py` line 593's `add_channel` and parks in
the sleep loop; the first finishes (`_connected = True`,
`_connecting = False`); the second resumes at line 604 and — the
channel list being non-empty — runs `add_channel` *again* at line 606).
Two connects thus create three channels, so the two `disconnect` calls
leave one channel behind and the socket is never closed: the final
channel count is 1, not 0, and the socket stays open. -/
theorem C2_connect_disconnect_leak :
    ((disconnectCall (disconnectCall (connectExistingAdd (connectFinish
        (connectEarlyAdd (connectBegin {})))))).channels.length = 1)
    ∧ ((disconnectCall (disconnectCall (connectExistingAdd (connectFinish
        (connectEarlyAdd (connectBegin {})))))).socketOpen = true) := by
  constructor <;> rfl

/-! ## Claim C3 -/

lemma startWith_sep_false {b : Nat} (l : Bytes) (hb : b ≠ 60) :
    bytesStartWith separator (b :: l) = false := by
  have h60 : (60 == b) = false := beq_eq_false_iff_ne.mpr (fun h => hb h.symm)
  simp [separator, bytesStartWith, h60]

/-- Scanning a block of bytes that contains no `60` (`<`) byte finds no
separator inside it; the scan cuts exactly at the explicit separator
that follows it. -/
lemma splitSepFuel_sepFree (m : Bytes) (hm : ∀ b ∈ m, b ≠ 60) :
    ∀ (f : Nat) (acc rest : Bytes), m.length + rest.length + 6 ≤ f →
    splitSepFuel f acc (m ++ (separator ++ rest)) =
      (acc.reverse ++ m) :: splitSepFuel (f - m.length - 1) [] rest := by
  induction m with
  | nil =>
    intro f acc rest hf
    obtain ⟨g, rfl⟩ : ∃ g, f = g + 1 := ⟨f - 1, by omega⟩
    simp [splitSepFuel, separator, bytesStartWith, List.drop]
  | cons b m' ih =>
    intro f acc rest hf
    obtain ⟨g, rfl⟩ : ∃ g, f = g + 1 := ⟨f - 1, by omega⟩
    have hb : b ≠ 60 := hm b (List.mem_cons_self b m')
    have hm' : ∀ x ∈ m', x ≠ 60 := fun x hx => hm x (List.mem_cons_of_mem b hx)
    have hstep : splitSepFuel (g + 1) acc ((b :: m') ++ (separator ++ rest)) =
        splitSepFuel g (b :: acc) (m' ++ (separator ++ rest)) := by
      simp only [List.cons_append, splitSepFuel, startWith_sep_false _ hb,
        Bool.false_eq_true, if_false]
      rfl
    have hfuel : g + 1 - (b :: m').length - 1 = g - m'.length - 1 := by
      simp only [List.length_cons]; omega
    rw [hstep,
      ih hm' g (b :: acc) rest (by simp only [List.length_cons] at hf; omega),
      hfuel]
    simp

lemma splitSep_two (m1 m2 : Bytes) (h1 : ∀ b ∈ m1, b ≠ 60)
    (h2 : ∀ b ∈ m2, b ≠ 60) :
    splitSep (m1 ++ separator ++ m2 ++ separator) = [m1, m2, []] := by
  unfold splitSep
  rw [List.append_assoc (m1 ++ separator) m2 separator,
    List.append_assoc m1 separator (m2 ++ separator)]
  rw [splitSepFuel_sepFree m1 h1 _ [] (m2 ++ separator)
    (by simp only [List.length_append, separator, List.length_cons,
          List.length_nil]; omega)]
  rw [show m2 ++ separator = m2 ++ (separator ++ []) by simp]
  rw [splitSepFuel_sepFree m2 h2 _ [] []
    (by simp only [List.length_append, separator, List.length_cons,
          List.length_nil]; omega)]
  simp [splitSepFuel]

lemma rstripSep_sepFree_append (m : Bytes) (hm : ∀ b ∈ m, b ∉ sepByteSet)
    (hne : m ≠ []) :
    rstripSep (m ++ separator) = m := by
  obtain ⟨y, t, hyt⟩ : ∃ y t, m.reverse = y :: t := by
    cases h : m.reverse with
    | nil =>
      exact absurd (by simpa using congrArg List.reverse h) hne
    | cons y t => exact ⟨y, t, rfl⟩
  have hy : y ∈ m := by
    have : y ∈ m.reverse := by rw [hyt]; exact List.mem_cons_self y t
    simpa using this
  have hpy : decide (y ∈ sepByteSet) = false := decide_eq_false (hm y hy)
  unfold rstripSep
  rw [List.reverse_append]
  have hdrop : ∀ l : Bytes,
      (separator.reverse ++ l).dropWhile (fun x => decide (x ∈ sepByteSet))
        = l.dropWhile (fun x => decide (x ∈ sepByteSet)) := fun l => rfl
  rw [hdrop, hyt, List.dropWhile_cons]
  simp only [hpy, Bool.false_eq_true, if_false]
  rw [← hyt, List.reverse_reverse]

/-- Claim C3, counterexample.  A chunked-read reassembly of two chunks
`[1] ++ sep ++ [2]` and `[3] ++ sep` (the first not ending with the
separator, the final one separator-terminated, the whole buffer holding
two separators).  Because `client.py` line 789 scans only the *final*
chunk (`data[-1]`) for separators — and it holds just one — no split
happens: the loop dispatches the single blob `[1] ++ sep ++ [2,3]`
containing an interior separator, not the two components `[1]` and
`[2,3]` that splitting the buffer at every separator would give (the
blob then fails to deserialize and both messages are lost). -/
theorem C3_counterexample :
    overrunDispatch [[1] ++ separator ++ [2], [3] ++ separator] =
        some [[1] ++ separator ++ [2, 3]]
    ∧ specSplitDispatch (([1] ++ separator ++ [2]) ++ ([3] ++ separator)) =
        [[1], [2, 3]]
    ∧ overrunDispatch [[1] ++ separator ++ [2], [3] ++ separator] ≠
        some (specSplitDispatch (([1] ++ separator ++ [2]) ++ ([3] ++ separator))) := by
  refine ⟨by decide, by decide, by decide⟩

/-- Claim C3, amended: the multi-separator split happens only for
separators contained in the *final* chunk of the chunked-read
reassembly (separators buried in earlier chunks are not split — see the
counterexample — and the server-side reassembly never splits at all).
When the reassembly consists of the final chunk alone and that chunk
carries two messages, each followed by the separator and neither
containing any of the separator's byte values, the loop dispatches
exactly those two messages, agreeing with the spec's
split-at-every-separator description; no unterminated trailing bytes
remain because chunks are read until one ends with the separator. -/
theorem C3_amended (m1 m2 : Bytes) (h1 : m1 ≠ []) (h2 : m2 ≠ [])
    (hb1 : ∀ b ∈ m1, b ∉ sepByteSet) (hb2 : ∀ b ∈ m2, b ∉ sepByteSet) :
    overrunDispatch [m1 ++ separator ++ m2 ++ separator] = some [m1, m2]
    ∧ specSplitDispatch (m1 ++ separator ++ m2 ++ separator) = [m1, m2] := by
  have h60a : ∀ b ∈ m1, b ≠ 60 := fun b hb h =>
    hb1 b hb (by rw [h]; simp [sepByteSet])
  have h60b : ∀ b ∈ m2, b ≠ 60 := fun b hb h =>
    hb2 b hb (by rw [h]; simp [sepByteSet])
  have hsplit := splitSep_two m1 m2 h60a h60b
  have hfilter : (splitSep (m1 ++ separator ++ m2 ++ separator)).filter
      (fun c => c ≠ []) = [m1, m2] := by
    rw [hsplit]
    simp [List.filter, h1, h2]
  have hcount : countSep (m1 ++ separator ++ m2 ++ separator) = 2 := by
    unfold countSep
    rw [hsplit]
    rfl
  constructor
  · unfold overrunDispatch
    rw [show List.getLastD [m1 ++ separator ++ m2 ++ separator] ([] : Bytes)
          = m1 ++ separator ++ m2 ++ separator from rfl]
    rw [if_pos (by rw [hcount]; omega)]
    rw [hfilter]
    show some (rstripSep
        ((List.dropLast [m1 ++ separator ++ m2 ++ separator]
          ++ [m1 ++ separator]).flatten) :: [m2]) = some [m1, m2]
    rw [show (List.dropLast [m1 ++ separator ++ m2 ++ separator]
          ++ [m1 ++ separator]).flatten = m1 ++ separator by simp]
    rw [rstripSep_sepFree_append m1 hb1 h1]
  · unfold specSplitDispatch
    exact hfilter

/-- Claim C3, witness for the amended theorem at a concrete input: a
single final chunk carrying the two messages `[1]` and `[2]`. -/
theorem C3_amended_witness :
    ((∀ b ∈ ([1] : Bytes), b ∉ sepByteSet) ∧ (∀ b ∈ ([2] : Bytes), b ∉ sepByteSet))
    ∧ (overrunDispatch [[1] ++ separator ++ [2] ++ separator] = some [[1], [2]]
       ∧ specSplitDispatch ([1] ++ separator ++ [2] ++ separator) = [[1], [2]]) :=
  ⟨⟨by decide, by decide⟩,
    C3_amended [1] [2] (by decide) (by decide) (by decide) (by decide)⟩

/-! ## Claim C4 -/

/-- Claim C4: during the handshake (peer not yet encrypted), the
`SessionKeyMessage` makes the server send the encrypted `TestMessage`
carrying the fresh random hex string, and on the decrypted test reply
the server sets `peer.encrypted` to true if and only if the reply's
`text` is `"TestEncryptionMessageResponse"` and its `fill` is the
reversal of the random string it sent; otherwise `peer.encrypted`
stays false. -/
theorem C4_test_encryption_check (o : Oracle) (s : SrvPeerState) (k : String)
    (henc : s.encrypted = false) :
    ((handleEncryption o s (.sessionKey k)).2 =
      [.timerCancelled,
       .sent (Msg.encMsg (Msg.testMsg o.freshRandom "TestEncryptionMessage") k)])
    ∧ ((handleEncryption o s (.sessionKey k)).1.random = o.freshRandom)
    ∧ (∀ fill text,
        (handleEncryption o ((handleEncryption o s (.sessionKey k)).1)
          (.encMsg (.testMsg fill text)
            ((handleEncryption o s (.sessionKey k)).1.aesKey))).1.encrypted = true
        ↔ (text = "TestEncryptionMessageResponse"
            ∧ fill = revString o.freshRandom)) := by
  have hs1 : (handleEncryption o s (.sessionKey k)).1 =
      { s with aesKey := k, rsaPrivate := "", rsaPublic := "",
               random := o.freshRandom } := by
    simp [handleEncryption, parseSessionKeyMessage, henc]
  refine ⟨?_, ?_, ?_⟩
  · simp [handleEncryption, parseSessionKeyMessage, henc]
  · rw [hs1]
  · intro fill text
    rw [hs1]
    by_cases hcond : text = "TestEncryptionMessageResponse"
        ∧ fill = revString o.freshRandom
    · obtain ⟨ht, hf⟩ := hcond
      simp [handleEncryption, ht, hf]
    · simp [handleEncryption, henc, hcond]

/-- Claim C4, witness at a concrete input. -/
theorem C4_witness :
    (({} : SrvPeerState).encrypted = false)
    ∧ (((handleEncryption ⟨"pr", "pu", "r0", fun _ => none, fun _ => 0, true⟩
          {} (.sessionKey "aes")).2 =
        [.timerCancelled,
         .sent (Msg.encMsg (Msg.testMsg "r0" "TestEncryptionMessage") "aes")])
      ∧ ((handleEncryption ⟨"pr", "pu", "r0", fun _ => none, fun _ => 0, true⟩
          {} (.sessionKey "aes")).1.random = "r0")
      ∧ (∀ fill text,
          (handleEncryption ⟨"pr", "pu", "r0", fun _ => none, fun _ => 0, true⟩
            ((handleEncryption ⟨"pr", "pu", "r0", fun _ => none, fun _ => 0, true⟩
              {} (.sessionKey "aes")).1)
            (.encMsg (.testMsg fill text)
              ((handleEncryption ⟨"pr", "pu", "r0", fun _ => none, fun _ => 0, true⟩
                {} (.sessionKey "aes")).1.aesKey))).1.encrypted = true
          ↔ (text = "TestEncryptionMessageResponse"
              ∧ fill = revString "r0"))) :=
  ⟨rfl, C4_test_encryption_check
    ⟨"pr", "pu", "r0", fun _ => none, fun _ => 0, true⟩ {} "aes" rfl⟩

/-! ## Claim C5 -/

lemma setupForwarding_encrypted (o : Oracle) (s : SrvPeerState) :
    (setupForwarding o s).1.encrypted = s.encrypted := by
  simp only [setupForwarding]
  cases h : (tryDialAttempts o (List.range 3)).1 <;> simp [h]

lemma handleForwarding_encrypted (o : Oracle) (s : SrvPeerState) (req : Bool) :
    (handleForwarding o s req).1.encrypted = s.encrypted := by
  simp only [handleForwarding]
  split_ifs with h1 h2 <;> simp [setupForwarding_encrypted]

lemma handleEncryption_encMsg_encrypted (o : Oracle) (s : SrvPeerState)
    (inner : Msg) (key : String) (henc : s.encrypted = true) :
    (handleEncryption o s (.encMsg inner key)).1.encrypted = true := by
  simp only [handleEncryption]
  split_ifs with h1
  · cases inner <;> simp [henc] <;> split_ifs <;> simp [henc]
  · simp [henc]

lemma processOne_keeps_encrypted (o : Oracle) (hasAuth : Bool)
    (s : SrvPeerState) (m : Msg) (henc : s.encrypted = true) :
    (processOne o hasAuth s m).1.encrypted = true := by
  unfold processOne
  simp only [henc, if_true]
  cases hdm : decryptIfPossible s.aesKey m with
  | rsaPublicKey key => simp [henc]
  | sessionKey k => simp [handleEncryption, parseSessionKeyMessage, henc]
  | aesKey key => simp [henc]
  | encMsg inner key => exact handleEncryption_encMsg_encrypted o s inner key henc
  | testMsg fill text => simp [henc]
  | challenge ar => simp [henc]
  | challengeReply cc =>
    cases cc <;> simp [handleAuth, henc] <;> split_ifs <;> simp [henc]
  | authReply a => simp [henc]
  | proxyMsg req tgt port ssl => exact handleForwarding_encrypted o s req ▸ henc
  | proxyResponse succ sd => simp [henc]
  | rpcRequest cid p => simp [henc]
  | rpcReply cid p => simp [henc]
  | ptyMsg d => simp [henc]
  | ptyResize r c => simp [henc]
  | ptyClosed r => simp [henc]
  | fileEntryStream p d e =>
    simp only [handleFileStream]
    split_ifs <;> simp [henc]
  | liveliness cid t => simp [handleLiveliness, henc]
  | aesRekey => simp [handleAesRekey, beginEncryption, henc]

/-- Claim C5: an encrypted peer never becomes unencrypted under any
received message; an `AesRekeyMessage` regenerates the RSA pair,
preserves `encrypted = true` and sends the fresh `RsaPublicKeyMessage`
encrypted under the *current* AES key; the subsequent
`SessionKeyMessage` replaces the AES key and erases the RSA private
material while `encrypted` stays true. -/
theorem C5_encrypted_monotone (o : Oracle) (hasAuth : Bool)
    (s : SrvPeerState) (henc : s.encrypted = true) :
    (∀ m, (processOne o hasAuth s m).1.encrypted = true)
    ∧ (processOne o hasAuth s .aesRekey =
        ({ s with rsaPrivate := o.freshRsaPrivate,
                  rsaPublic := o.freshRsaPublic },
         [.sent (Msg.encMsg (Msg.rsaPublicKey o.freshRsaPublic) s.aesKey),
          .timerStarted]))
    ∧ (∀ k, (processOne o hasAuth s (.sessionKey k)).1 =
        { s with aesKey := k, rsaPrivate := "", rsaPublic := "" }) := by
  refine ⟨fun m => processOne_keeps_encrypted o hasAuth s m henc, ?_, ?_⟩
  · simp [processOne, decryptIfPossible, handleAesRekey, beginEncryption, henc]
  · intro k
    simp [processOne, decryptIfPossible, handleEncryption,
      parseSessionKeyMessage, henc]

/-- Claim C5, witness at a concrete encrypted peer. -/
theorem C5_witness :
    (({ encrypted := true, aesKey := "a0" } : SrvPeerState).encrypted = true)
    ∧ ((∀ m, (processOne ⟨"pr", "pu", "r0", fun _ => none, fun _ => 0, true⟩
          true { encrypted := true, aesKey := "a0" } m).1.encrypted = true)
      ∧ (processOne ⟨"pr", "pu", "r0", fun _ => none, fun _ => 0, true⟩
          true { encrypted := true, aesKey := "a0" } .aesRekey =
          ({ ({ encrypted := true, aesKey := "a0" } : SrvPeerState) with
              rsaPrivate := "pr", rsaPublic := "pu" },
           [.sent (Msg.encMsg (Msg.rsaPublicKey "pu") "a0"), .timerStarted]))
      ∧ (∀ k, (processOne ⟨"pr", "pu", "r0", fun _ => none, fun _ => 0, true⟩
          true { encrypted := true, aesKey := "a0" } (.sessionKey k)).1 =
          { ({ encrypted := true, aesKey := "a0" } : SrvPeerState) with
              aesKey := k, rsaPrivate := "", rsaPublic := "" })) :=
  ⟨rfl, C5_encrypted_monotone ⟨"pr", "pu", "r0", fun _ => none, fun _ => 0, true⟩
    true { encrypted := true, aesKey := "a0" } rfl⟩

/-! ## Claim C7 -/

/-- Claim C7: on a `ProxyMessage` with `proxy_required = false`, the
server replies `ProxyResponseMessage` with `success = false`, does not
destroy the peer, and (the peer neither destroyed nor proxied) proceeds
to the encryption bootstrap.  With `proxy_required = true` and every
dial failing, it makes exactly 3 attempts — each failed attempt padded
by a sleep of `max 0 (1000 ms − elapsed)` so attempts keep a 1-second
cadence (elapsed + padding = max(elapsed, 1 s)) — then replies
`success = false` and destroys the peer. -/
theorem C7_forwarding (o : Oracle) (s : SrvPeerState)
    (hfail : ∀ n < 3, o.dial n = none)
    (hnd : s.destroyed = false) (hnp : s.proxied = false) :
    (handleForwarding o s false =
      (s, [.sent (Msg.proxyResponse false none), .forwardingEventSet]))
    ∧ (handleClientPostForwarding o s =
        ({ s with rsaPrivate := o.freshRsaPrivate,
                  rsaPublic := o.freshRsaPublic },
         [.sent (Msg.rsaPublicKey o.freshRsaPublic), .timerStarted]))
    ∧ (handleForwarding o s true =
        ({ s with destroyed := true },
         [.sleptMs (max 0 (1000 - o.dialElapsedMs 0)),
          .sleptMs (max 0 (1000 - o.dialElapsedMs 1)),
          .sleptMs (max 0 (1000 - o.dialElapsedMs 2)),
          .sent (Msg.proxyResponse false none), .forwardingEventSet]))
    ∧ (∀ n < 3, o.dialElapsedMs n + max 0 (1000 - o.dialElapsedMs n) =
        max (o.dialElapsedMs n) 1000) := by
  have h0 := hfail 0 (by omega)
  have h1 := hfail 1 (by omega)
  have h2 := hfail 2 (by omega)
  have hr3 : List.range 3 = [0, 1, 2] := rfl
  refine ⟨?_, ?_, ?_, ?_⟩
  · simp [handleForwarding]
  · simp [handleClientPostForwarding, hnd, hnp, beginEncryption]
  · simp [handleForwarding, setupForwarding, tryDialAttempts, hr3, h0, h1, h2]
  · intro n _
    omega

/-- Claim C7, witness: a concrete oracle whose three dials all fail
instantly, so each failed attempt is padded by a full 1-second sleep. -/
theorem C7_witness :
    ((∀ n < 3, (⟨"pr", "pu", "r0", fun _ => none, fun _ => 0, true⟩ :
        Oracle).dial n = none)
      ∧ ({} : SrvPeerState).destroyed = false ∧ ({} : SrvPeerState).proxied = false)
    ∧ ((handleForwarding ⟨"pr", "pu", "r0", fun _ => none, fun _ => 0, true⟩
          {} false =
        ({}, [.sent (Msg.proxyResponse false none), .forwardingEventSet]))
      ∧ (handleClientPostForwarding
          ⟨"pr", "pu", "r0", fun _ => none, fun _ => 0, true⟩ {} =
          ({ ({} : SrvPeerState) with rsaPrivate := "pr", rsaPublic := "pu" },
           [.sent (Msg.rsaPublicKey "pu"), .timerStarted]))
      ∧ (handleForwarding ⟨"pr", "pu", "r0", fun _ => none, fun _ => 0, true⟩
          {} true =
          ({ ({} : SrvPeerState) with destroyed := true },
           [.sleptMs (max 0 (1000 - 0)), .sleptMs (max 0 (1000 - 0)),
            .sleptMs (max 0 (1000 - 0)),
            .sent (Msg.proxyResponse false none), .forwardingEventSet]))
      ∧ (∀ n < 3, (0 : Nat) + max 0 (1000 - 0) = max 0 1000)) := by
  refine ⟨⟨fun n _ => rfl, rfl, rfl⟩, ?_⟩
  exact C7_forwarding ⟨"pr", "pu", "r0", fun _ => none, fun _ => 0, true⟩ {}
    (fun n _ => rfl) rfl rfl

/-! ## Claim C8 -/

/-- Claim C8: a frame whose bytes fail to deserialize is skipped on its
own, on the server and on the client alike: processing the frame list
with the malformed frame in front equals processing the remaining
frames from the same state — the peer is not destroyed and no state
(encrypted flag, keys, channels, files) changes on its account. -/
theorem C8_malformed_frame_skipped (deserS deserC : Bytes → Option Msg)
    (o : Oracle) (hasAuth : Bool) (s : SrvPeerState) (cst : ClientState)
    (bad : Bytes) (rest : List Bytes)
    (hS : deserS bad = none) (hC : deserC bad = none) :
    serverProcessFrames deserS o hasAuth s (bad :: rest) =
      serverProcessFrames deserS o hasAuth s rest
    ∧ clientProcessFrames deserC cst (bad :: rest) =
      clientProcessFrames deserC cst rest := by
  constructor
  · simp [serverProcessFrames, hS]
  · simp [clientProcessFrames, hC]

/-- Claim C8, witness: a deserializer rejecting everything, a concrete
malformed frame and a concrete follow-up list. -/
theorem C8_witness :
    ((fun _ : Bytes => (none : Option Msg)) [0] = none)
    ∧ (serverProcessFrames (fun _ => none)
          ⟨"pr", "pu", "r0", fun _ => none, fun _ => 0, true⟩ false {}
          ([0] :: [[1]]) =
        serverProcessFrames (fun _ => none)
          ⟨"pr", "pu", "r0", fun _ => none, fun _ => 0, true⟩ false {} [[1]]
      ∧ clientProcessFrames (fun _ => none) {} ([0] :: [[1]]) =
        clientProcessFrames (fun _ => none) {} [[1]]) :=
  ⟨rfl, C8_malformed_frame_skipped (fun _ => none) (fun _ => none)
    ⟨"pr", "pu", "r0", fun _ => none, fun _ => 0, true⟩ false {} {}
    [0] [[1]] rfl rfl⟩

/-! ## Claim C10 -/

/-- Claim C10: `send_reply` for a peer id absent from the registry (the
peer was destroyed) returns without raising, writes nothing on any
socket, and leaves the registry — and with it every remaining peer's
state — unchanged: the reply is silently dropped. -/
theorem C10_send_reply_unknown_peer (peers : List (Nat × SrvPeerState))
    (ctx chan : Nat) (data : Bytes)
    (h : ∀ p ∈ peers, p.1 ≠ ctx) :
    sendReply peers ctx chan data = (peers, []) := by
  unfold sendReply getPeer
  have hf : peers.find? (fun p => p.1 == ctx) = none :=
    List.find?_eq_none.mpr (fun p hp => by simp [h p hp])
  simp [hf]

/-- Claim C10, witness: a registry holding only peer 1; a reply for the
destroyed peer 2 is dropped. -/
theorem C10_witness :
    (∀ p ∈ [((1 : Nat), ({} : SrvPeerState))], p.1 ≠ 2)
    ∧ sendReply [((1 : Nat), ({} : SrvPeerState))] 2 0 [5] =
        ([((1 : Nat), ({} : SrvPeerState))], []) :=
  ⟨by simp, C10_send_reply_unknown_peer [(1, {})] 2 0 [5] (by simp)⟩

/-! ## Claim C6 -/

/-- Claim C6, counterexample.  The claim quantifies over *every*
sequence of prior `add_channel`/`remove_channel`/`release` operations,
but `add_channel` assigns `id = len(channels)`, so the sequence
add, add, remove-first-idle, add yields two channels both bearing
id 1.  Acquiring both (two concurrent requests, both tagged
`chan_id = 1`) and delivering a reply tagged `chan_id = 1` enqueues it
on the *first* channel's mailbox, while the second channel's awaiter —
whose request carried the same id — receives nothing: the reply to the
second awaiter's request is consumed by the first channel's awaiter,
a cross-delivery. -/
theorem C6_counterexample :
    addChannel (removeFirstIdle (addChannel (addChannel []))) =
      [⟨1, false, []⟩, ⟨1, false, []⟩]
    ∧ (acquireChannel [⟨1, false, []⟩, ⟨1, false, []⟩]).map (fun p => p.2)
        = some [⟨1, true, []⟩, ⟨1, false, []⟩]
    ∧ (acquireChannel [⟨1, true, []⟩, ⟨1, false, []⟩]).map (fun p => p.2)
        = some [⟨1, true, []⟩, ⟨1, true, []⟩]
    ∧ putReplyFirst [⟨1, true, []⟩, ⟨1, true, []⟩] 1 (.rpcReply 1 [7]) =
        some [⟨1, true, [.rpcReply 1 [7]]⟩, ⟨1, true, []⟩] :=
  ⟨by decide, by decide, by decide, by decide⟩

/-- Claim C6, amended: *provided the channel ids are pairwise distinct*
(no remove-then-add has produced duplicates), a reply tagged
`chan_id = c` is enqueued exactly on the unique channel with id `c`,
and every other channel — in particular every other awaiter's
mailbox — is left completely unchanged; an unknown id is a hard error
(`ChannelError`). -/
theorem C6_amended (cs : List Channel) (i : Nat) (m : Msg)
    (hnodup : (cs.map (fun c => c.id)).Nodup)
    (hex : ∃ c ∈ cs, c.id = i) :
    ∃ cs2, putReplyFirst cs i m = some cs2
      ∧ cs2.length = cs.length
      ∧ ∀ (j : Nat) (c : Channel), cs[j]? = some c →
          ((c.id = i → cs2[j]? = some { c with q := c.q ++ [m] })
           ∧ (c.id ≠ i → cs2[j]? = some c)) := by
  induction cs with
  | nil => simp at hex
  | cons c0 rest ih =>
    simp only [List.map_cons, List.nodup_cons] at hnodup
    obtain ⟨hnotin, hnd⟩ := hnodup
    by_cases hc : c0.id = i
    · refine ⟨{ c0 with q := c0.q ++ [m] } :: rest, by simp [putReplyFirst, hc],
        by simp, ?_⟩
      intro j c hj
      cases j with
      | zero =>
        simp only [List.getElem?_cons_zero, Option.some.injEq] at hj
        subst hj
        exact ⟨fun _ => by simp, fun hne => absurd hc hne⟩
      | succ j1 =>
        simp only [List.getElem?_cons_succ] at hj
        have hcm : c ∈ rest := by
          have h := List.getElem?_eq_some.mp hj
          obtain ⟨hlt, hget⟩ := h
          exact hget ▸ List.getElem_mem hlt
        have hcne : c.id ≠ i := by
          intro hci
          exact hnotin (by
            rw [hc, ← hci]
            exact List.mem_map_of_mem (fun x => x.id) hcm)
        exact ⟨fun hci => absurd hci hcne, fun _ => by simpa using hj⟩
    · have hex2 : ∃ c ∈ rest, c.id = i := by
        obtain ⟨c, hcm, hci⟩ := hex
        rcases List.mem_cons.mp hcm with rfl | hm
        · exact absurd hci hc
        · exact ⟨c, hm, hci⟩
      obtain ⟨rs2, hput, hlen, hpos⟩ := ih hnd hex2
      refine ⟨c0 :: rs2, by simp [putReplyFirst, hc, hput], by simp [hlen], ?_⟩
      intro j c hj
      cases j with
      | zero =>
        simp only [List.getElem?_cons_zero, Option.some.injEq] at hj
        subst hj
        exact ⟨fun hci => absurd hci hc, fun _ => by simp⟩
      | succ j1 =>
        simp only [List.getElem?_cons_succ] at hj
        have h := hpos j1 c hj
        exact ⟨fun hci => by simpa using h.1 hci, fun hci => by simpa using h.2 hci⟩

/-- Claim C6, witness for the amended theorem: two distinct-id in-use
channels; the reply tagged id 1 goes only to the channel with id 1. -/
theorem C6_amended_witness :
    ((([⟨0, true, []⟩, ⟨1, true, []⟩] : List Channel).map (fun c => c.id)).Nodup
      ∧ ∃ c ∈ ([⟨0, true, []⟩, ⟨1, true, []⟩] : List Channel), c.id = 1)
    ∧ (∃ cs2, putReplyFirst [⟨0, true, []⟩, ⟨1, true, []⟩] 1 (.rpcReply 1 [9])
          = some cs2
        ∧ cs2.length = ([⟨0, true, []⟩, ⟨1, true, []⟩] : List Channel).length
        ∧ ∀ (j : Nat) (c : Channel),
            ([⟨0, true, []⟩, ⟨1, true, []⟩] : List Channel)[j]? = some c →
            ((c.id = 1 → cs2[j]? = some { c with q := c.q ++ [.rpcReply 1 [9]] })
             ∧ (c.id ≠ 1 → cs2[j]? = some c))) :=
  ⟨⟨by decide, by decide⟩,
    C6_amended [⟨0, true, []⟩, ⟨1, true, []⟩] 1 (.rpcReply 1 [9])
      (by decide) (by decide)⟩

/-! ## Claim C9 -/

lemma lookupFile_map_update (fs : List (String × Bytes)) (p : String) (b : Bytes)
    (h : fs.any (fun e => e.1 == p) = true) :
    lookupFile (fs.map (fun e => if e.1 == p then (p, b) else e)) p = some b := by
  induction fs with
  | nil => simp at h
  | cons e fs ih =>
    by_cases he : (e.1 == p) = true
    · rw [List.map_cons, if_pos he]
      unfold lookupFile
      rw [@List.find?_cons_of_pos _ (fun x : String × Bytes => x.1 == p) (p, b)
        (List.map (fun e => if e.1 == p then (p, b) else e) fs) (by simp)]
      rfl
    · have h2 : fs.any (fun e => e.1 == p) = true := by
        rw [List.any_cons] at h
        rcases Bool.or_eq_true_iff.mp h with hx | hx
        · exact absurd hx he
        · exact hx
      rw [List.map_cons, if_neg he]
      unfold lookupFile
      rw [@List.find?_cons_of_neg _ (fun x : String × Bytes => x.1 == p) e
        (List.map (fun e => if e.1 == p then (p, b) else e) fs) he]
      exact ih h2

lemma lookupFile_append_new (fs : List (String × Bytes)) (p : String) (b : Bytes)
    (h : fs.any (fun e => e.1 == p) = false) :
    lookupFile (fs ++ [(p, b)]) p = some b := by
  induction fs with
  | nil =>
    unfold lookupFile
    rw [List.nil_append,
      @List.find?_cons_of_pos _ (fun x : String × Bytes => x.1 == p) (p, b) []
        (by simp)]
    rfl
  | cons e fs ih =>
    rw [List.any_cons] at h
    have he : ¬ (e.1 == p) = true := by
      intro hx
      rw [hx] at h
      simp at h
    have h2 : fs.any (fun e => e.1 == p) = false := by
      cases hx : fs.any (fun e => e.1 == p)
      · rfl
      · rw [hx] at h; simp at h
    rw [List.cons_append]
    unfold lookupFile
    rw [@List.find?_cons_of_neg _ (fun x : String × Bytes => x.1 == p) e
      (fs ++ [(p, b)]) he]
    exact ih h2

lemma lookupFile_setFile_self (fs : List (String × Bytes)) (p : String)
    (b : Bytes) :
    lookupFile (setFile fs p b) p = some b := by
  by_cases h : fs.any (fun e => e.1 == p) = true
  · simp only [setFile, h, if_true]
    exact lookupFile_map_update fs p b h
  · simp only [setFile, h, if_false]
    exact lookupFile_append_new fs p b (Bool.eq_false_iff.mpr h)

/-- A single `handle_file_stream_message` call leaves the file at the
chunk's path holding the previous handle's content (empty when the path
had no open handle, so the `"wb"` open truncated it) followed by the
chunk's data. -/
lemma handleFileStream_files_lookup (s : SrvPeerState) (path : String)
    (d : Bytes) (e : Bool) :
    lookupFile ((handleFileStream s path d e).1).files path =
      some ((if path ∈ s.fhPaths then (lookupFile s.files path).getD []
             else []) ++ d) := by
  by_cases hmem : path ∈ s.fhPaths
  · cases e <;> simp [handleFileStream, hmem, lookupFile_setFile_self]
  · cases e <;> simp [handleFileStream, hmem, lookupFile_setFile_self]

/-- A single call closes the handle exactly when the chunk has
`eof = true` (the path occurs at most once among the open handles). -/
lemma handleFileStream_fh (s : SrvPeerState) (path : String) (d : Bytes)
    (e : Bool) (hcount : s.fhPaths.count path ≤ 1) :
    ((handleFileStream s path d e).1).fhPaths.count path
      = if e then 0 else 1 := by
  by_cases hmem : path ∈ s.fhPaths
  · have h1 : s.fhPaths.count path = 1 := by
      have hne : s.fhPaths.count path ≠ 0 := by
        intro h0
        exact absurd hmem (List.count_eq_zero.mp h0)
      omega
    cases e <;> simp [handleFileStream, hmem, List.count_erase_self, h1]
  · have h0 : s.fhPaths.count path = 0 := List.count_eq_zero.mpr hmem
    cases e <;>
      simp [handleFileStream, hmem, List.count_erase_self, List.count_append, h0]

/-- A chunk with `eof = false` leaves the path's handle open. -/
lemma handleFileStream_open_mem (s : SrvPeerState) (path : String) (d : Bytes) :
    path ∈ ((handleFileStream s path d false).1).fhPaths := by
  by_cases h : path ∈ s.fhPaths <;> simp [handleFileStream, h]

/-- A chunk with `eof = true` leaves the path's handle closed. -/
lemma handleFileStream_close_notMem (s : SrvPeerState) (path : String)
    (d : Bytes) (hcount : s.fhPaths.count path ≤ 1) :
    path ∉ ((handleFileStream s path d true).1).fhPaths := by
  have h := handleFileStream_fh s path d true hcount
  simp only [if_true] at h
  exact List.count_eq_zero.mp h

/-- On the first chunk for a path the parent directories are created
and the path is opened for write. -/
lemma handleFileStream_outs_new (s : SrvPeerState) (path : String) (d : Bytes)
    (e : Bool) (hmem : path ∉ s.fhPaths) :
    (handleFileStream s path d e).2 =
      [.mkdirParents path, .openedForWrite path]
        ++ (if e then [.closedHandle path] else []) := by
  cases e <;> simp [handleFileStream, hmem]

lemma runFileStream_concat (path : String) :
    ∀ (body : List (Bytes × Bool)) (lastc : Bytes × Bool) (s : SrvPeerState)
      (acc : Bytes),
      (∀ c ∈ body, c.2 = false) → lastc.2 = true →
      s.fhPaths.count path = 1 → lookupFile s.files path = some acc →
      lookupFile (runFileStream s path (body ++ [lastc])).files path
        = some (acc ++ ((body ++ [lastc]).map (fun c => c.1)).flatten)
      ∧ (runFileStream s path (body ++ [lastc])).fhPaths.count path = 0 := by
  intro body
  induction body with
  | nil =>
    intro lastc s acc _ hlast h1 h2
    have hmem : path ∈ s.fhPaths := by
      by_contra hno
      exact absurd (List.count_eq_zero.mpr hno) (by omega)
    constructor
    · have := handleFileStream_files_lookup s path lastc.1 lastc.2
      simp only [runFileStream, List.nil_append, List.foldl_cons, List.foldl_nil]
      rw [this]
      simp [hmem, h2]
    · have := handleFileStream_fh s path lastc.1 lastc.2 (by omega)
      simp only [runFileStream, List.nil_append, List.foldl_cons, List.foldl_nil]
      rw [this, hlast]
      simp
  | cons c body ih =>
    intro lastc s acc hbody hlast h1 h2
    have hcfalse : c.2 = false := hbody c (List.mem_cons_self _ _)
    have hmem : path ∈ s.fhPaths := by
      by_contra hno
      exact absurd (List.count_eq_zero.mpr hno) (by omega)
    have hstepl : lookupFile ((handleFileStream s path c.1 c.2).1).files path
        = some (acc ++ c.1) := by
      rw [handleFileStream_files_lookup]
      simp [hmem, h2]
    have hstepc : ((handleFileStream s path c.1 c.2).1).fhPaths.count path = 1 := by
      rw [handleFileStream_fh s path c.1 c.2 (by omega), hcfalse]
      simp
    have hrun : runFileStream s path ((c :: body) ++ [lastc]) =
        runFileStream ((handleFileStream s path c.1 c.2).1) path (body ++ [lastc]) := by
      simp [runFileStream]
    have h := ih lastc ((handleFileStream s path c.1 c.2).1) (acc ++ c.1)
      (fun x hx => hbody x (List.mem_cons_of_mem _ hx)) hlast hstepc hstepl
    rw [hrun]
    refine ⟨?_, h.2⟩
    rw [h.1]
    simp

/-- Claim C9: for an arrival-ordered chunk sequence for a path (no
`eof` until the final chunk, which carries `eof = true`), starting from
a state with no open handle for the path: the first chunk creates the
parent directories and opens the path for write; a chunk with
`eof = false` leaves the handle open and one with `eof = true` closes
it; the final file content is exactly the concatenation of all the
chunks' `data` fields; and the handle is closed at the end.  A single
chunk with `eof = true` and empty `data` still creates the (empty)
file — see the witness. -/
theorem C9_file_stream (s : SrvPeerState) (path : String)
    (chunks : List (Bytes × Bool))
    (hstart : path ∉ s.fhPaths)
    (hne : chunks ≠ [])
    (hbody : ∀ c ∈ chunks.dropLast, c.2 = false)
    (hlast : (chunks.getLast hne).2 = true) :
    (∀ d e, (handleFileStream s path d e).2.take 2 =
      [.mkdirParents path, .openedForWrite path])
    ∧ (∀ s2 d, path ∈ ((handleFileStream s2 path d false).1).fhPaths)
    ∧ (∀ s2 d, s2.fhPaths.count path ≤ 1 →
        path ∉ ((handleFileStream s2 path d true).1).fhPaths)
    ∧ lookupFile (runFileStream s path chunks).files path =
        some (chunks.map (fun c => c.1)).flatten
    ∧ path ∉ (runFileStream s path chunks).fhPaths := by
  obtain ⟨body, lastc, rfl⟩ : ∃ body lastc, chunks = body ++ [lastc] :=
    ⟨chunks.dropLast, chunks.getLast hne, (List.dropLast_append_getLast hne).symm⟩
  have hbody2 : ∀ c ∈ body, c.2 = false := by
    intro c hc
    exact hbody c (by rw [List.dropLast_concat]; exact hc)
  have hlast2 : lastc.2 = true := by
    rw [← hlast]
    congr 1
    exact (List.getLast_concat _).symm
  obtain ⟨ld, le⟩ := lastc
  have hle : le = true := hlast2
  subst hle
  refine ⟨?_, fun s2 d => handleFileStream_open_mem s2 path d,
    fun s2 d h => handleFileStream_close_notMem s2 path d h, ?_, ?_⟩
  · intro d e
    rw [handleFileStream_outs_new s path d e hstart]
    cases e <;> rfl
  · cases body with
    | nil =>
      simp only [runFileStream, List.nil_append, List.foldl_cons, List.foldl_nil]
      rw [handleFileStream_files_lookup]
      simp [hstart]
    | cons c0 body1 =>
      have hc0 : c0.2 = false := hbody2 c0 (List.mem_cons_self _ _)
      have hstepl : lookupFile ((handleFileStream s path c0.1 c0.2).1).files path
          = some c0.1 := by
        rw [handleFileStream_files_lookup]
        simp [hstart]
      have hstepc : ((handleFileStream s path c0.1 c0.2).1).fhPaths.count path
          = 1 := by
        rw [handleFileStream_fh s path c0.1 c0.2
          (by simp [List.count_eq_zero.mpr hstart]), hc0]
        simp
      have h := runFileStream_concat path body1 (ld, true)
        ((handleFileStream s path c0.1 c0.2).1) c0.1
        (fun x hx => hbody2 x (List.mem_cons_of_mem _ hx)) hlast2 hstepc hstepl
      have hrun : runFileStream s path ((c0 :: body1) ++ [(ld, true)]) =
          runFileStream ((handleFileStream s path c0.1 c0.2).1) path
            (body1 ++ [(ld, true)]) := by
        simp [runFileStream]
      rw [hrun, h.1]
      simp
  · cases body with
    | nil =>
      simp only [runFileStream, List.nil_append, List.foldl_cons, List.foldl_nil]
      have h := handleFileStream_fh s path ld true
        (by simp [List.count_eq_zero.mpr hstart])
      rw [if_pos rfl] at h
      exact List.count_eq_zero.mp h
    | cons c0 body1 =>
      have hc0 : c0.2 = false := hbody2 c0 (List.mem_cons_self _ _)
      have hstepl : lookupFile ((handleFileStream s path c0.1 c0.2).1).files path
          = some c0.1 := by
        rw [handleFileStream_files_lookup]
        simp [hstart]
      have hstepc : ((handleFileStream s path c0.1 c0.2).1).fhPaths.count path
          = 1 := by
        rw [handleFileStream_fh s path c0.1 c0.2
          (by simp [List.count_eq_zero.mpr hstart]), hc0]
        simp
      have h := runFileStream_concat path body1 (ld, true)
        ((handleFileStream s path c0.1 c0.2).1) c0.1
        (fun x hx => hbody2 x (List.mem_cons_of_mem _ hx)) hlast2 hstepc hstepl
      have hrun : runFileStream s path ((c0 :: body1) ++ [(ld, true)]) =
          runFileStream ((handleFileStream s path c0.1 c0.2).1) path
            (body1 ++ [(ld, true)]) := by
        simp [runFileStream]
      rw [hrun]
      exact List.count_eq_zero.mp h.2

/-- Claim C9, witness: a single chunk with `eof = true` and zero-length
data still creates the file — its final content is the empty byte
string and the handle ends closed. -/
theorem C9_witness :
    (("f" ∉ ({} : SrvPeerState).fhPaths)
      ∧ ([(([] : Bytes), true)] : List (Bytes × Bool)) ≠ [])
    ∧ ((∀ d e, (handleFileStream {} "f" d e).2.take 2 =
        [.mkdirParents "f", .openedForWrite "f"])
      ∧ (∀ s2 d, "f" ∈ ((handleFileStream s2 "f" d false).1).fhPaths)
      ∧ (∀ s2 d, s2.fhPaths.count "f" ≤ 1 →
          "f" ∉ ((handleFileStream s2 "f" d true).1).fhPaths)
      ∧ lookupFile (runFileStream {} "f" [(([] : Bytes), true)]).files "f" =
          some (([(([] : Bytes), true)].map (fun c => c.1)).flatten)
      ∧ "f" ∉ (runFileStream {} "f" [(([] : Bytes), true)]).fhPaths) :=
  ⟨⟨by simp, by simp⟩,
    C9_file_stream {} "f" [(([] : Bytes), true)] (by simp) (by simp)
      (by simp) rfl⟩

end FluxRPC
